import Mathlib

/-!
Verification of the VeriFund AI service (src/ai-service/main.py).

The development shallowly embeds the inference-time pipeline of the service:
feature reconciliation (one-hot encoding of `project_category` followed by a
reindex to the fixed training columns), the explainability ranking step of the
`/score` endpoint, the price-range derivation of `/suggest-price`, and the
GitHub webhook handler with its commit classifier and best-effort backend
notification.  The two trained XGBoost models and the SHAP explainer are
opaque capabilities and are modelled as function parameters that either
return a value or fail with an error message.  Machine floats are modelled
by rationals; Python `round` (round-half-to-even) is modelled explicitly.
-/

/-- Decides whether the character list `p` is a prefix of `s`
(mirrors the prefix step of Python substring search). -/
def prefAt : List Char → List Char → Bool
  | [], _ => true
  | _ :: _, [] => false
  | p :: ps, c :: cs => p = c && prefAt ps cs

/-- Decides whether the character list `pat` occurs contiguously inside `s`. -/
def subIn (pat : List Char) : List Char → Bool
  | [] => prefAt pat []
  | c :: cs => prefAt pat (c :: cs) || subIn pat cs

/-- `strContainsSub s pat` mirrors Python `pat in s` (substring containment). -/
def strContainsSub (s pat : String) : Bool :=
  subIn pat.data s.data

/-- `strStartsWith s pre` mirrors Python `s.startswith(pre)`. -/
def strStartsWith (s pre : String) : Bool :=
  prefAt pre.data s.data

/-- The validated input record of the `/score` and `/suggest-price` endpoints
(Pydantic model `CreatorData` in main.py).  Numeric fields are ints/floats,
`project_category` is an arbitrary string. -/
structure CreatorData where
  projects_completed : ℤ
  tenure_months : ℤ
  portfolio_strength : ℚ
  on_time_delivery_percent : ℚ
  avg_client_rating : ℚ
  rating_trajectory : ℚ
  dispute_rate : ℚ
  project_category : String
  deriving DecidableEq

/-- The range constraints imposed by the Pydantic `Field(..., ge, le)`
declarations.  Note that `project_category` is an unconstrained string. -/
def CreatorData.Valid (c : CreatorData) : Prop :=
  5 ≤ c.projects_completed ∧ c.projects_completed ≤ 50 ∧
  6 ≤ c.tenure_months ∧ c.tenure_months ≤ 60 ∧
  1 / 2 ≤ c.portfolio_strength ∧ c.portfolio_strength ≤ 1 ∧
  7 / 10 ≤ c.on_time_delivery_percent ∧ c.on_time_delivery_percent ≤ 1 ∧
  7 / 2 ≤ c.avg_client_rating ∧ c.avg_client_rating ≤ 5 ∧
  -(1 / 5) ≤ c.rating_trajectory ∧ c.rating_trajectory ≤ 3 / 10 ∧
  0 ≤ c.dispute_rate ∧ c.dispute_rate ≤ 3 / 20

instance (c : CreatorData) : Decidable c.Valid := by
  unfold CreatorData.Valid
  infer_instance

/-- The exact column list the models were trained on
(`TRAINING_COLUMNS` in main.py). -/
def TRAINING_COLUMNS : List String :=
  ["projects_completed",
   "tenure_months",
   "portfolio_strength",
   "on_time_delivery_percent",
   "avg_client_rating",
   "rating_trajectory",
   "dispute_rate",
   "project_category_Graphic Design",
   "project_category_Mobile Development",
   "project_category_UI/UX Design",
   "project_category_Web Development"]

/-- The four category values known to the training schema. -/
def knownCategories : List String :=
  ["Graphic Design", "Mobile Development", "UI/UX Design", "Web Development"]

/-- The single-row DataFrame after `pd.get_dummies(df, columns=["project_category"])`:
the numeric columns keep their values and the category column is replaced by
one dummy column named `"project_category_" ++ category` holding 1. -/
def CreatorData.dummyRow (c : CreatorData) : List (String × ℚ) :=
  [("projects_completed", (c.projects_completed : ℚ)),
   ("tenure_months", (c.tenure_months : ℚ)),
   ("portfolio_strength", c.portfolio_strength),
   ("on_time_delivery_percent", c.on_time_delivery_percent),
   ("avg_client_rating", c.avg_client_rating),
   ("rating_trajectory", c.rating_trajectory),
   ("dispute_rate", c.dispute_rate),
   ("project_category_" ++ c.project_category, 1)]

/-- Column lookup with the `fill_value=0` default of `DataFrame.reindex`. -/
def lookupOr0 : List (String × ℚ) → String → ℚ
  | [], _ => 0
  | (k, v) :: rest, col => if k = col then v else lookupOr0 rest col

/-- `df.reindex(columns=cols, fill_value=0)` on a single row: one value per
requested column, in the requested order, defaulting to 0. -/
def reindex (cols : List String) (row : List (String × ℚ)) : List ℚ :=
  cols.map (fun col => lookupOr0 row col)

/-- The feature-reconciliation step shared by `/score` and `/suggest-price`
(steps 6b/6c and 7b/7c of main.py): one-hot encode, then reindex to
`TRAINING_COLUMNS` with missing columns filled with 0. -/
def reconcile (c : CreatorData) : List ℚ :=
  reindex TRAINING_COLUMNS c.dummyRow

/-- 1 when the record's category equals `k`, else 0: the value an expansion
column receives after reconciliation. -/
def catIndicator (c : CreatorData) (k : String) : ℚ :=
  if c.project_category = k then 1 else 0

/-- The worked example record from the Pydantic schema documentation. -/
def exampleCreator : CreatorData :=
  { projects_completed := 25
    tenure_months := 36
    portfolio_strength := 85 / 100
    on_time_delivery_percent := 95 / 100
    avg_client_rating := 47 / 10
    rating_trajectory := 15 / 100
    dispute_rate := 3 / 100
    project_category := "Web Development" }

/-- Python round-half-to-even (`round`, also used by `np.round`) to the
nearest integer, on exact rationals. -/
def roundHalfEven (q : ℚ) : ℤ :=
  if q - ⌊q⌋ < 1 / 2 then ⌊q⌋
  else if 1 / 2 < q - ⌊q⌋ then ⌊q⌋ + 1
  else if ⌊q⌋ % 2 = 0 then ⌊q⌋ else ⌊q⌋ + 1

/-- Python `round(x, 2)`: round half to even at two decimal places. -/
def pyRound2 (q : ℚ) : ℚ :=
  (roundHalfEven (q * 100) : ℚ) / 100

/-- The `value` field of a reasons entry: a rounded number for numeric
columns, the category display name for the collapsed categorical entry. -/
inductive FeatureValue where
  | num : ℚ → FeatureValue
  | cat : String → FeatureValue
  deriving DecidableEq

/-- One entry of the `reasons` list of the `/score` response. -/
structure Contribution where
  feature : String
  value : FeatureValue
  impact : ℚ
  deriving DecidableEq

/-- Per-column body of the explainability loop (step 6f of main.py): keep a
column only when its value is non-zero or its absolute SHAP impact exceeds
0.01; collapse an active expansion column (raw value 1) into a single
`project_category` entry; drop inactive expansion columns. -/
def contrib (col : String) (v imp : ℚ) : Option Contribution :=
  if v ≠ 0 ∨ 1 / 100 < |imp| then
    if strStartsWith col "project_category_" then
      if v = 1 then
        some { feature := "project_category",
               value := FeatureValue.cat (col.replace "project_category_" ""),
               impact := pyRound2 imp }
      else none
    else
      some { feature := col, value := FeatureValue.num (pyRound2 v),
             impact := pyRound2 imp }
  else none

/-- The unsorted `feature_impacts` list: the loop over
`enumerate(TRAINING_COLUMNS)` pairing each column with its feature value and
SHAP impact. -/
def featureImpacts (vec imps : List ℚ) : List Contribution :=
  (TRAINING_COLUMNS.zip (vec.zip imps)).filterMap
    (fun t => contrib t.1 t.2.1 t.2.2)

/-- `feature_impacts.sort(key=lambda x: abs(x["impact"]), reverse=True)`:
Python list sort is stable, and `reverse=True` gives descending order while
preserving the original order of tied keys. -/
def sortImpacts (l : List Contribution) : List Contribution :=
  l.mergeSort (fun a b => decide (|b.impact| ≤ |a.impact|))

/-- `top_reasons = feature_impacts[:5]` after sorting. -/
def explainReasons (vec imps : List ℚ) : List Contribution :=
  (sortImpacts (featureImpacts vec imps)).take 5

/-- The HTTP error raised by the endpoints on failure
(`HTTPException(status_code=500, detail=...)`). -/
structure HTTPException where
  status_code : ℕ
  detail : String
  deriving DecidableEq

/-- The JSON response of the `/score` endpoint. -/
structure ScoreResponse where
  projectSuccessScore : ℚ
  reasons : List Contribution
  deriving DecidableEq

/-- The `/score` endpoint (step 6 of main.py).  The trained model and the
SHAP explainer are opaque capabilities: functions that either return a value
or fail with an error message; any failure inside the `try` block is turned
into a 500 `HTTPException` whose detail prepends the fixed text to the
error's own message. -/
def score_creator (predict : List ℚ → Except String ℚ)
    (attrib : List ℚ → Except String (List ℚ))
    (c : CreatorData) : Except HTTPException ScoreResponse :=
  match predict (reconcile c) with
  | Except.error e => Except.error ⟨500, "Error processing request: " ++ e⟩
  | Except.ok score =>
    match attrib (reconcile c) with
    | Except.error e => Except.error ⟨500, "Error processing request: " ++ e⟩
    | Except.ok shapValues =>
      Except.ok ⟨pyRound2 score, explainReasons (reconcile c) shapValues⟩

/-- The JSON response of the `/suggest-price` endpoint. -/
structure PriceResponse where
  suggested_price : ℤ
  price_range : ℤ × ℤ
  deriving DecidableEq

/-- The `/suggest-price` endpoint (step 7 of main.py): the prediction is
rounded to an integer, the range bounds are the prediction ±12% (by
multiplication, rounded), the lower bound is raised to at least 50000 and
the upper bound capped at 500000.  The suggested price itself is NOT
clamped. -/
def suggest_price (price_predict : List ℚ → Except String ℚ)
    (c : CreatorData) : Except HTTPException PriceResponse :=
  match price_predict (reconcile c) with
  | Except.error e =>
    Except.error ⟨500, "Error processing pricing request: " ++ e⟩
  | Except.ok pred =>
    let suggested_price : ℤ := roundHalfEven pred
    let lower_bound : ℤ :=
      roundHalfEven ((suggested_price : ℚ) * (1 - 12 / 100))
    let upper_bound : ℤ :=
      roundHalfEven ((suggested_price : ℚ) * (1 + 12 / 100))
    Except.ok ⟨suggested_price, (max 50000 lower_bound, min 500000 upper_bound)⟩

/-- Python `str.lower()` on the character list of the message (the service
only matches ASCII keywords, for which `Char.toLower` agrees with Python
case folding). -/
def strToLower (s : String) : String :=
  String.mk (s.data.map Char.toLower)

/-- The fixed keyword set of the webhook handler (`meaningful_keywords` in
main.py). -/
def meaningful_keywords : List String :=
  ["feat", "feature",
   "fix", "bugfix",
   "chore",
   "docs", "documentation",
   "refactor",
   "perf", "performance",
   "test",
   "style"]

/-- The commit classifier inlined in the webhook handler: case-fold the
message, walk the keyword list in order and stop at the first keyword
contained in the message (`first match wins`); on a match the score delta is
the uniform draw from [0.5, 2.5] rounded to two decimals, otherwise 0.  The
random draw is an opaque input `rand`. -/
def classify (message : String) (rand : ℚ) : Bool × ℚ :=
  match meaningful_keywords.find?
      (fun kw => strContainsSub (strToLower message) kw) with
  | some _ => (true, pyRound2 rand)
  | none => (false, 0)

/-- The GitHub webhook payload (`GitHubWebhookPayload` in main.py):
`head_commit` is an optional dict, modelled as an optional association
list of its string fields. -/
structure WebhookPayload where
  ref : String
  head_commit : Option (List (String × String))
  repository : List (String × String)

/-- Python `dict.get(key, default)`. -/
def dictGetD (d : List (String × String)) (k dflt : String) : String :=
  match d.find? (fun p => p.1 = k) with
  | some p => p.2
  | none => dflt

/-- The commit message extracted by the handler:
`payload.head_commit.get("message", "")` when `head_commit` is present,
the empty string otherwise. -/
def rawCommitMessage (p : WebhookPayload) : String :=
  match p.head_commit with
  | some hc => dictGetD hc "message" ""
  | none => ""

/-- Result of the single outbound POST to the backend, as observed by the
handler: a 200 response, a non-2xx status, or a raised exception (timeout,
connection error). -/
inductive DeliveryOutcome where
  | ok (body : String)
  | httpStatus (code : ℕ) (text : String)
  | exc (msg : String)
  deriving DecidableEq

/-- The JSON response of the webhook endpoint. -/
structure WebhookResponse where
  projectId : String
  scoreIncrease : ℚ
  commitMessage : String
  message : String
  deriving DecidableEq

/-- Observable trace of one webhook call: the HTTP response to the inbound
caller, the number of outbound POSTs made, and whether the delivery (if
attempted) succeeded - the latter is only logged by the handler. -/
structure WebhookRun where
  response : Except HTTPException WebhookResponse
  attempts : ℕ
  delivered : Option Bool

/-- Whether the outbound delivery counted as a success (status 200); both a
non-200 status and a raised exception are merely logged by the handler. -/
def notifySucceeded : DeliveryOutcome → Bool
  | DeliveryOutcome.ok _ => true
  | DeliveryOutcome.httpStatus _ _ => false
  | DeliveryOutcome.exc _ => false

/-- The `/webhook/github/(project_id)` endpoint (step 8 of main.py): extract
the commit message (empty when `head_commit` is absent), classify it, and on
a positive delta attempt exactly one outbound POST whose outcome - success,
error status or exception - is swallowed after logging; the response to the
inbound caller always reports the computed delta and raw commit message. -/
def handle_github_webhook (project_id : String) (payload : WebhookPayload)
    (rand : ℚ) (outcome : DeliveryOutcome) : WebhookRun :=
  let commit_message_raw := rawCommitMessage payload
  let score_increase := (classify commit_message_raw rand).2
  { response := Except.ok
      { projectId := project_id,
        scoreIncrease := score_increase,
        commitMessage := commit_message_raw,
        message := "Webhook processed successfully" },
    attempts := if 0 < score_increase then 1 else 0,
    delivered := if 0 < score_increase then some (notifySucceeded outcome)
      else none }

/-- A record whose category is outside the four known values. -/
def unknownCreator : CreatorData :=
  { exampleCreator with project_category := "Data Science" }

/-- Left cancellation for string append, used to evaluate the one-hot column
lookup `"project_category_" ++ category` against the schema columns. -/
theorem string_append_left_inj (s t u : String) : s ++ t = s ++ u ↔ t = u := by
  constructor
  · intro h
    have hd := congrArg String.data h
    rw [String.data_append, String.data_append] at hd
    exact String.ext (List.append_cancel_left hd)
  · intro h
    rw [h]

theorem lookupOr0_expansion (c : CreatorData) (k : String)
    (h1 : ("projects_completed" : String) ≠ "project_category_" ++ k)
    (h2 : ("tenure_months" : String) ≠ "project_category_" ++ k)
    (h3 : ("portfolio_strength" : String) ≠ "project_category_" ++ k)
    (h4 : ("on_time_delivery_percent" : String) ≠ "project_category_" ++ k)
    (h5 : ("avg_client_rating" : String) ≠ "project_category_" ++ k)
    (h6 : ("dispute_rate" : String) ≠ "project_category_" ++ k)
    (h7 : ("rating_trajectory" : String) ≠ "project_category_" ++ k) :
    lookupOr0 c.dummyRow ("project_category_" ++ k) = catIndicator c k := by
  simp only [CreatorData.dummyRow, lookupOr0, catIndicator,
    if_neg h1, if_neg h2, if_neg h3, if_neg h4, if_neg h5, if_neg h6, if_neg h7,
    string_append_left_inj]

/-- Closed form of the reconciled feature vector: the seven numeric fields in
schema order followed by the four one-hot indicator values. -/
theorem reconcile_eq (c : CreatorData) :
    reconcile c =
      [(c.projects_completed : ℚ), (c.tenure_months : ℚ), c.portfolio_strength,
       c.on_time_delivery_percent, c.avg_client_rating, c.rating_trajectory,
       c.dispute_rate,
       catIndicator c "Graphic Design", catIndicator c "Mobile Development",
       catIndicator c "UI/UX Design", catIndicator c "Web Development"] := by
  have hGD : ("project_category_Graphic Design" : String) =
      "project_category_" ++ "Graphic Design" := by decide
  have hMD : ("project_category_Mobile Development" : String) =
      "project_category_" ++ "Mobile Development" := by decide
  have hUI : ("project_category_UI/UX Design" : String) =
      "project_category_" ++ "UI/UX Design" := by decide
  have hWD : ("project_category_Web Development" : String) =
      "project_category_" ++ "Web Development" := by decide
  simp only [reconcile, reindex, TRAINING_COLUMNS, List.map_cons, List.map_nil]
  rw [hGD, hMD, hUI, hWD]
  rw [lookupOr0_expansion c "Graphic Design" (by decide) (by decide) (by decide)
    (by decide) (by decide) (by decide) (by decide)]
  rw [lookupOr0_expansion c "Mobile Development" (by decide) (by decide) (by decide)
    (by decide) (by decide) (by decide) (by decide)]
  rw [lookupOr0_expansion c "UI/UX Design" (by decide) (by decide) (by decide)
    (by decide) (by decide) (by decide) (by decide)]
  rw [lookupOr0_expansion c "Web Development" (by decide) (by decide) (by decide)
    (by decide) (by decide) (by decide) (by decide)]
  simp [CreatorData.dummyRow, lookupOr0]

theorem exampleCreator_valid : exampleCreator.Valid := by
  refine ⟨?_, ?_, ?_, ?_, ?_, ?_, ?_, ?_, ?_, ?_, ?_, ?_, ?_, ?_⟩ <;>
    norm_num [exampleCreator]

/-- C1: for every valid Creator Record, reconciliation (one-hot encoding then
reindex to `TRAINING_COLUMNS`) yields a vector of exactly the 11 schema
columns in schema order, with every column not supplied by the record filled
with 0, and the four `project_category` expansion columns (positions 7-10)
contain exactly one 1 when the record's category is one of the four known
values and are all 0 otherwise. -/
theorem reconcile_matches_schema (c : CreatorData) (hv : c.Valid) :
    (reconcile c).length = TRAINING_COLUMNS.length ∧
    reconcile c =
      [(c.projects_completed : ℚ), (c.tenure_months : ℚ), c.portfolio_strength,
       c.on_time_delivery_percent, c.avg_client_rating, c.rating_trajectory,
       c.dispute_rate,
       catIndicator c "Graphic Design", catIndicator c "Mobile Development",
       catIndicator c "UI/UX Design", catIndicator c "Web Development"] ∧
    (c.project_category ∈ knownCategories →
      ((reconcile c).drop 7).count 1 = 1) ∧
    (c.project_category ∉ knownCategories →
      ∀ x ∈ (reconcile c).drop 7, x = 0) := by
  refine ⟨?_, reconcile_eq c, ?_, ?_⟩
  · rw [reconcile_eq c]
    rfl
  · intro hmem
    rw [reconcile_eq c]
    simp only [knownCategories, List.mem_cons, List.not_mem_nil, or_false] at hmem
    rcases hmem with h | h | h | h
    all_goals simp [catIndicator, h, List.count_cons]
  · intro hmem
    rw [reconcile_eq c]
    simp only [knownCategories, List.mem_cons, List.not_mem_nil, or_false,
      not_or] at hmem
    obtain ⟨h1, h2, h3, h4⟩ := hmem
    intro x hx
    simp only [List.drop, List.mem_cons, List.not_mem_nil, or_false] at hx
    rcases hx with h | h | h | h
    all_goals simp [h, catIndicator, h1, h2, h3, h4]

theorem reconcile_matches_schema_witness :
    (reconcile exampleCreator).length = TRAINING_COLUMNS.length :=
  (reconcile_matches_schema exampleCreator
    (by refine ⟨?_, ?_, ?_, ?_, ?_, ?_, ?_, ?_, ?_, ?_, ?_, ?_, ?_, ?_⟩ <;>
      norm_num [exampleCreator])).1

/-- C8: feature reconciliation is a pure, deterministic function: two calls on
the same Creator Record produce identical feature vectors. -/
theorem reconcile_pure (c1 c2 : CreatorData) (h : c1 = c2) :
    reconcile c1 = reconcile c2 := by
  rw [h]

theorem reconcile_pure_witness :
    reconcile exampleCreator = reconcile exampleCreator :=
  reconcile_pure exampleCreator exampleCreator rfl

theorem le_roundHalfEven (a : ℤ) (q : ℚ) (h : (a : ℚ) ≤ q) :
    a ≤ roundHalfEven q := by
  have hfl : a ≤ ⌊q⌋ := Int.le_floor.mpr h
  unfold roundHalfEven
  split_ifs <;> omega

theorem roundHalfEven_le (b : ℤ) (q : ℚ) (h : q ≤ b) :
    roundHalfEven q ≤ b := by
  have hfl : ⌊q⌋ ≤ b := by
    calc ⌊q⌋ ≤ ⌊(b : ℚ)⌋ := Int.floor_mono h
    _ = b := Int.floor_intCast b
  have hfq : (⌊q⌋ : ℚ) ≤ q := Int.floor_le q
  unfold roundHalfEven
  split_ifs with hlt hgt heven
  · exact hfl
  · have hq : (⌊q⌋ : ℚ) + 1 / 2 ≤ q := by linarith
    have : (⌊q⌋ : ℚ) < b := by
      have : (b : ℚ) ≥ (⌊q⌋ : ℚ) + 1 / 2 := le_trans hq h
      linarith
    have : ⌊q⌋ < b := by exact_mod_cast this
    omega
  · exact hfl
  · have hq : (⌊q⌋ : ℚ) + 1 / 2 ≤ q := by linarith
    have : (⌊q⌋ : ℚ) < b := by
      have : (b : ℚ) ≥ (⌊q⌋ : ℚ) + 1 / 2 := le_trans hq h
      linarith
    have : ⌊q⌋ < b := by exact_mod_cast this
    omega

theorem sortImpacts_pairwise (l : List Contribution) :
    (sortImpacts l).Pairwise (fun a b => |b.impact| ≤ |a.impact|) := by
  have h := @List.sorted_mergeSort Contribution
    (fun a b : Contribution => decide (|b.impact| ≤ |a.impact|))
    (fun a b c hab hbc => by
      simp only [decide_eq_true_eq] at hab hbc ⊢
      exact le_trans hbc hab)
    (fun a b => by
      simp only [Bool.or_eq_true, decide_eq_true_eq]
      exact le_total |b.impact| |a.impact|)
    l
  have h2 : (l.mergeSort (fun a b => decide (|b.impact| ≤ |a.impact|))).Pairwise
      (fun a b => |b.impact| ≤ |a.impact|) := by
    refine h.imp ?_
    intro a b hab
    simpa using hab
  exact h2

/-- C3: the reasons list is sorted by descending absolute impact (every
adjacent pair satisfies the inequality), ties keep their original schema
order because the sort is stable, and at most 5 entries are returned. -/
theorem explainReasons_sorted_top5 (vec imps : List ℚ) :
    List.Chain' (fun a b => |b.impact| ≤ |a.impact|) (explainReasons vec imps) ∧
    (∀ a b : Contribution, |a.impact| = |b.impact| →
      List.Sublist [a, b] (featureImpacts vec imps) →
      List.Sublist [a, b] (sortImpacts (featureImpacts vec imps))) ∧
    (explainReasons vec imps).length ≤ 5 := by
  refine ⟨?_, ?_, ?_⟩
  · have hp := sortImpacts_pairwise (featureImpacts vec imps)
    have hsub : (explainReasons vec imps).Sublist
        (sortImpacts (featureImpacts vec imps)) := List.take_sublist _ _
    exact (hp.sublist hsub).chain'
  · intro a b hab hsub
    refine List.sublist_mergeSort
      (fun a b c hab hbc => by
        simp only [decide_eq_true_eq] at hab hbc ⊢
        exact le_trans hbc hab)
      (fun a b => by
        simp only [Bool.or_eq_true, decide_eq_true_eq]
        exact le_total |b.impact| |a.impact|)
      ?_ hsub
    simp [hab]
  · exact List.length_take_le 5 _

theorem explainReasons_sorted_top5_witness :
    (explainReasons (reconcile exampleCreator) []).length ≤ 5 :=
  (explainReasons_sorted_top5 (reconcile exampleCreator) []).2.2

/-- C4: a schema column contributes a reasons entry only if its value is
non-zero or its absolute impact exceeds 0.01; an expansion column is kept
exactly when its raw value is 1, in which case it collapses to a single
entry labeled `project_category` carrying the category display value, and
every inactive expansion column produces no entry at all. -/
theorem contrib_filter_collapse (col : String) (v imp : ℚ) :
    ((v = 0 ∧ |imp| ≤ 1 / 100) → contrib col v imp = none) ∧
    (strStartsWith col "project_category_" = true →
      (v = 1 → contrib col v imp =
        some { feature := "project_category",
               value := FeatureValue.cat (col.replace "project_category_" ""),
               impact := pyRound2 imp }) ∧
      (v ≠ 1 → contrib col v imp = none)) := by
  refine ⟨?_, fun hpre => ⟨?_, ?_⟩⟩
  · rintro ⟨hv, himp⟩
    unfold contrib
    rw [if_neg]
    push_neg
    exact ⟨hv, himp⟩
  · intro hv
    unfold contrib
    rw [if_pos (Or.inl (by rw [hv]; norm_num)), if_pos hpre, if_pos hv]
  · intro hv
    unfold contrib
    by_cases hkeep : v ≠ 0 ∨ 1 / 100 < |imp|
    · rw [if_pos hkeep, if_pos hpre, if_neg hv]
    · rw [if_neg hkeep]

theorem contrib_filter_collapse_witness :
    contrib "project_category_Web Development" 0 (1 / 200) = none :=
  (contrib_filter_collapse "project_category_Web Development" 0 (1 / 200)).1
    ⟨rfl, by rw [abs_of_nonneg (by norm_num : (0 : ℚ) ≤ 1 / 200)]; norm_num⟩

theorem roundHalfEven_intCast (n : ℤ) : roundHalfEven ((n : ℤ) : ℚ) = n := by
  unfold roundHalfEven
  rw [Int.floor_intCast]
  norm_num

/-- C2 counterexample: with a pricing model predicting 10000, the endpoint
returns suggested_price 10000 (below the band, unclamped) with range
(50000, 11200): the claimed invariant lower ≤ suggested_price ≤ upper fails
(indeed lower > upper). -/
theorem suggest_price_unclamped_counterexample :
    suggest_price (fun _ => Except.ok 10000) exampleCreator =
      Except.ok ⟨10000, (50000, 11200)⟩ ∧
    ¬((50000 : ℤ) ≤ 10000) ∧
    ¬((50000 : ℤ) ≤ 10000 ∧ (10000 : ℤ) ≤ 11200) := by
  have h1 : roundHalfEven ((10000 : ℚ)) = 10000 := by
    have := roundHalfEven_intCast 10000
    norm_num at this
    exact this
  have h2 : roundHalfEven (((10000 : ℤ) : ℚ) * (1 - 12 / 100)) = 8800 := by
    have he : (((10000 : ℤ) : ℚ) * (1 - 12 / 100)) = ((8800 : ℤ) : ℚ) := by
      push_cast
      norm_num
    rw [he, roundHalfEven_intCast]
  have h3 : roundHalfEven (((10000 : ℤ) : ℚ) * (1 + 12 / 100)) = 11200 := by
    have he : (((10000 : ℤ) : ℚ) * (1 + 12 / 100)) = ((11200 : ℤ) : ℚ) := by
      push_cast
      norm_num
    rw [he, roundHalfEven_intCast]
  refine ⟨?_, by norm_num, by norm_num⟩
  unfold suggest_price
  simp only [h1, h2, h3]
  norm_num

/-- C2 amended: the suggested price is the raw rounded model prediction
(never clamped); the range bounds are ±12% of it by multiplication and then
clamped to the band, so 50000 ≤ lower and upper ≤ 500000 always hold, and
lower ≤ suggested_price ≤ upper holds exactly when the suggested price
itself already lies in the band [50000, 500000]. -/
theorem suggest_price_range_invariant
    (price_predict : List ℚ → Except String ℚ) (c : CreatorData) (pred : ℚ)
    (hp : price_predict (reconcile c) = Except.ok pred) :
    suggest_price price_predict c =
      Except.ok
        { suggested_price := roundHalfEven pred,
          price_range :=
            (max 50000 (roundHalfEven ((roundHalfEven pred : ℚ) * (1 - 12 / 100))),
             min 500000 (roundHalfEven ((roundHalfEven pred : ℚ) * (1 + 12 / 100)))) } ∧
    (∀ r : PriceResponse, suggest_price price_predict c = Except.ok r →
      50000 ≤ r.price_range.1 ∧ r.price_range.2 ≤ 500000 ∧
      (50000 ≤ r.suggested_price → r.suggested_price ≤ 500000 →
        r.price_range.1 ≤ r.suggested_price ∧
        r.suggested_price ≤ r.price_range.2)) := by
  have heq : suggest_price price_predict c =
      Except.ok
        { suggested_price := roundHalfEven pred,
          price_range :=
            (max 50000 (roundHalfEven ((roundHalfEven pred : ℚ) * (1 - 12 / 100))),
             min 500000 (roundHalfEven ((roundHalfEven pred : ℚ) * (1 + 12 / 100)))) } := by
    unfold suggest_price
    rw [hp]
  refine ⟨heq, ?_⟩
  intro r hr
  rw [heq] at hr
  simp only [Except.ok.injEq] at hr
  subst hr
  dsimp only
  refine ⟨le_max_left _ _, min_le_left _ _, fun hlo hhi => ⟨?_, ?_⟩⟩
  · have hsp0 : (0 : ℚ) ≤ (roundHalfEven pred : ℚ) := by
      exact_mod_cast le_trans (by norm_num : (0 : ℤ) ≤ 50000) hlo
    refine max_le hlo (roundHalfEven_le _ _ ?_)
    have hm : (0 : ℚ) ≤ (roundHalfEven pred : ℚ) * (12 / 100) :=
      mul_nonneg hsp0 (by norm_num)
    linarith
  · have hsp0 : (0 : ℚ) ≤ (roundHalfEven pred : ℚ) := by
      exact_mod_cast le_trans (by norm_num : (0 : ℤ) ≤ 50000) hlo
    refine le_min hhi (le_roundHalfEven _ _ ?_)
    have hm : (0 : ℚ) ≤ (roundHalfEven pred : ℚ) * (12 / 100) :=
      mul_nonneg hsp0 (by norm_num)
    linarith

theorem suggest_price_range_invariant_witness :
    suggest_price (fun _ => Except.ok 100000) exampleCreator =
      Except.ok
        { suggested_price := roundHalfEven (100000 : ℚ),
          price_range :=
            (max 50000 (roundHalfEven ((roundHalfEven (100000 : ℚ) : ℚ) * (1 - 12 / 100))),
             min 500000 (roundHalfEven ((roundHalfEven (100000 : ℚ) : ℚ) * (1 + 12 / 100)))) } :=
  (suggest_price_range_invariant (fun _ => Except.ok 100000) exampleCreator
    100000 rfl).1

/-- C7 amended: a model failure in the scoring or pricing path is
request-fatal: the endpoint returns a 500 error and no score or price, the
capability is invoked without any retry, and the surfaced detail carries the
fixed prefix followed by the underlying error's own message (not the feature
vector's shape). -/
theorem prediction_failure_request_fatal
    (predict : List ℚ → Except String ℚ)
    (attrib : List ℚ → Except String (List ℚ))
    (price_predict : List ℚ → Except String ℚ)
    (c : CreatorData) (e : String) :
    (predict (reconcile c) = Except.error e →
      score_creator predict attrib c =
        Except.error ⟨500, "Error processing request: " ++ e⟩) ∧
    (price_predict (reconcile c) = Except.error e →
      suggest_price price_predict c =
        Except.error ⟨500, "Error processing pricing request: " ++ e⟩) := by
  constructor
  · intro h
    unfold score_creator
    rw [h]
  · intro h
    unfold suggest_price
    rw [h]

/-- C7 counterexample: a scoring-model failure with message "boom" surfaces
the detail "Error processing request: boom"; the feature vector's shape
(its length 11, or any shape text) appears nowhere in the surfaced error,
contrary to the claim that the failure carries the vector's shape as
diagnostic context. -/
theorem prediction_failure_shape_counterexample :
    score_creator (fun _ => Except.error "boom") (fun _ => Except.ok [])
        exampleCreator =
      Except.error ⟨500, "Error processing request: boom"⟩ ∧
    (reconcile exampleCreator).length = 11 ∧
    strContainsSub "Error processing request: boom" "11" = false ∧
    strContainsSub "Error processing request: boom" "shape" = false := by
  refine ⟨rfl, ?_, by decide, by decide⟩
  rw [reconcile_eq]
  rfl

theorem prediction_failure_request_fatal_witness :
    score_creator (fun _ => Except.error "err") (fun _ => Except.ok [])
        exampleCreator =
      Except.error ⟨500, "Error processing request: " ++ "err"⟩ :=
  (prediction_failure_request_fatal (fun _ => Except.error "err")
    (fun _ => Except.ok []) (fun _ => Except.ok 0) exampleCreator "err").1 rfl

theorem pyRound2_bounds (rand : ℚ) (h1 : 1 / 2 ≤ rand) (h2 : rand ≤ 5 / 2) :
    1 / 2 ≤ pyRound2 rand ∧ pyRound2 rand ≤ 5 / 2 := by
  have h50 : ((50 : ℤ) : ℚ) ≤ rand * 100 := by
    push_cast
    linarith
  have h250 : rand * 100 ≤ ((250 : ℤ) : ℚ) := by
    push_cast
    linarith
  have hlo := le_roundHalfEven 50 (rand * 100) h50
  have hhi := roundHalfEven_le 250 (rand * 100) h250
  have hloq : (50 : ℚ) ≤ (roundHalfEven (rand * 100) : ℚ) := by
    exact_mod_cast hlo
  have hhiq : (roundHalfEven (rand * 100) : ℚ) ≤ 250 := by
    exact_mod_cast hhi
  unfold pyRound2
  constructor <;> linarith

/-- C5: classification case-folds the message and tests substring
containment against the fixed keyword set, the first contained keyword (in
list order) winning: when some keyword is contained the commit is meaningful
and the delta is the uniform draw from [0.5, 2.5] rounded to two decimals
(hence itself in [0.5, 2.5]); when none is contained the delta is 0 and the
commit is not meaningful. -/
theorem classify_keyword_containment (msg : String) (rand : ℚ)
    (hr : 1 / 2 ≤ rand ∧ rand ≤ 5 / 2) :
    ((∃ kw ∈ meaningful_keywords,
        strContainsSub (strToLower msg) kw = true) →
      (classify msg rand).1 = true ∧
      (classify msg rand).2 = pyRound2 rand ∧
      1 / 2 ≤ (classify msg rand).2 ∧ (classify msg rand).2 ≤ 5 / 2) ∧
    ((∀ kw ∈ meaningful_keywords,
        strContainsSub (strToLower msg) kw = false) →
      (classify msg rand).1 = false ∧ (classify msg rand).2 = 0) := by
  constructor
  · rintro ⟨kw, hkw, hc⟩
    have hsome : (meaningful_keywords.find?
        (fun kw => strContainsSub (strToLower msg) kw)).isSome :=
      List.find?_isSome.mpr ⟨kw, hkw, hc⟩
    obtain ⟨k, hk⟩ := Option.isSome_iff_exists.mp hsome
    have hb := pyRound2_bounds rand hr.1 hr.2
    unfold classify
    rw [hk]
    exact ⟨rfl, rfl, hb.1, hb.2⟩
  · intro hall
    have hnone : meaningful_keywords.find?
        (fun kw => strContainsSub (strToLower msg) kw) = none := by
      rw [List.find?_eq_none]
      intro x hx
      rw [hall x hx]
      simp
    unfold classify
    rw [hnone]
    exact ⟨rfl, rfl⟩

theorem classify_keyword_containment_witness :
    (classify "feat: add new dashboard feature" 1).1 = true ∧
    (classify "feat: add new dashboard feature" 1).2 = pyRound2 1 ∧
    1 / 2 ≤ (classify "feat: add new dashboard feature" 1).2 ∧
    (classify "feat: add new dashboard feature" 1).2 ≤ 5 / 2 :=
  (classify_keyword_containment "feat: add new dashboard feature" 1
    (by norm_num)).1 ⟨"feat", by decide, by decide⟩

/-- C6: the webhook handler's response to its caller always reports the
computed score delta and the raw commit message, whatever the outcome of the
outbound delivery (200, error status or exception): the outcome never
changes the response, no exception escapes to the inbound caller, and at
most one delivery attempt is made (never retried). -/
theorem webhook_delivery_best_effort (project_id : String)
    (payload : WebhookPayload) (rand : ℚ) (outcome : DeliveryOutcome) :
    (handle_github_webhook project_id payload rand outcome).response =
      Except.ok
        { projectId := project_id,
          scoreIncrease := (classify (rawCommitMessage payload) rand).2,
          commitMessage := rawCommitMessage payload,
          message := "Webhook processed successfully" } ∧
    (∀ outcome2 : DeliveryOutcome,
      (handle_github_webhook project_id payload rand outcome2).response =
        (handle_github_webhook project_id payload rand outcome).response) ∧
    (handle_github_webhook project_id payload rand outcome).attempts ≤ 1 := by
  refine ⟨rfl, fun _ => rfl, ?_⟩
  unfold handle_github_webhook
  dsimp only
  split_ifs <;> norm_num

/-- C10: when the payload has no `head_commit`, the handler treats the
message as empty, classifies it as not meaningful, performs no outbound
POST, and returns a success response with scoreIncrease 0 and an empty
commit message - without raising. -/
theorem webhook_missing_head_commit (project_id rf : String)
    (repo : List (String × String)) (rand : ℚ) (outcome : DeliveryOutcome) :
    handle_github_webhook project_id ⟨rf, none, repo⟩ rand outcome =
      { response := Except.ok
          { projectId := project_id, scoreIncrease := 0,
            commitMessage := "", message := "Webhook processed successfully" },
        attempts := 0, delivered := none } := by
  have hmsg : rawCommitMessage ⟨rf, none, repo⟩ = "" := rfl
  have hnone : meaningful_keywords.find?
      (fun kw => strContainsSub (strToLower "") kw) = none := by decide
  have hcl : classify "" rand = (false, 0) := by
    unfold classify
    rw [hnone]
  unfold handle_github_webhook
  rw [hmsg]
  simp only [hcl]
  norm_num

theorem zip_proj_mem {α β γ : Type} :
    ∀ (cols : List α) (vec : List β) (imps : List γ),
      ∀ t ∈ cols.zip (vec.zip imps), (t.1, t.2.1) ∈ cols.zip vec := by
  intro cols
  induction cols with
  | nil =>
    intro vec imps t ht
    simp at ht
  | cons cl cls ih =>
    intro vec imps t ht
    cases vec with
    | nil => simp at ht
    | cons v vs =>
      cases imps with
      | nil => simp at ht
      | cons im ims =>
        rw [List.zip_cons_cons, List.zip_cons_cons] at ht
        rw [List.zip_cons_cons]
        rcases List.mem_cons.mp ht with h | h
        · subst h
          exact List.mem_cons_self _ _
        · exact List.mem_cons_of_mem _ (ih vs ims t h)

theorem reconcile_expansion_zero (c : CreatorData)
    (hunk : c.project_category ∉ knownCategories) (imps : List ℚ) :
    ∀ t ∈ TRAINING_COLUMNS.zip ((reconcile c).zip imps),
      (strStartsWith t.1 "project_category_") = true → t.2.1 = 0 := by
  simp only [knownCategories, List.mem_cons, List.not_mem_nil, or_false,
    not_or] at hunk
  obtain ⟨hGD, hMD, hUI, hWD⟩ := hunk
  intro t ht hsw
  have hcv := zip_proj_mem TRAINING_COLUMNS (reconcile c) imps t ht
  rw [reconcile_eq] at hcv
  simp only [TRAINING_COLUMNS, List.zip_cons_cons, List.zip_nil_right,
    List.mem_cons, List.not_mem_nil, or_false, Prod.mk.injEq] at hcv
  rcases hcv with h | h | h | h | h | h | h | h | h | h | h
  · rw [h.1] at hsw
    exact absurd hsw (by decide)
  · rw [h.1] at hsw
    exact absurd hsw (by decide)
  · rw [h.1] at hsw
    exact absurd hsw (by decide)
  · rw [h.1] at hsw
    exact absurd hsw (by decide)
  · rw [h.1] at hsw
    exact absurd hsw (by decide)
  · rw [h.1] at hsw
    exact absurd hsw (by decide)
  · rw [h.1] at hsw
    exact absurd hsw (by decide)
  · rw [h.2]
    simp [catIndicator, hGD]
  · rw [h.2]
    simp [catIndicator, hMD]
  · rw [h.2]
    simp [catIndicator, hUI]
  · rw [h.2]
    simp [catIndicator, hWD]

/-- C9: a record whose category is outside the four known values is not
rejected: validity never constrains the category string, reconciliation
fills all four expansion columns with 0, the `/score` endpoint still
returns a score whenever the model capabilities succeed, and the reasons
list contains no `project_category` entry. -/
theorem unknown_category_still_scored (c : CreatorData) (hv : c.Valid)
    (hunk : c.project_category ∉ knownCategories) :
    (∀ s : String, CreatorData.Valid { c with project_category := s }) ∧
    (reconcile c).drop 7 = [0, 0, 0, 0] ∧
    (∀ (predict : List ℚ → Except String ℚ)
       (attrib : List ℚ → Except String (List ℚ)) (score : ℚ)
       (shapv : List ℚ),
      predict (reconcile c) = Except.ok score →
      attrib (reconcile c) = Except.ok shapv →
      score_creator predict attrib c =
        Except.ok ⟨pyRound2 score, explainReasons (reconcile c) shapv⟩) ∧
    (∀ imps : List ℚ, ∀ e ∈ explainReasons (reconcile c) imps,
      e.feature ≠ "project_category") := by
  have hcats := hunk
  simp only [knownCategories, List.mem_cons, List.not_mem_nil, or_false,
    not_or] at hcats
  obtain ⟨hGD, hMD, hUI, hWD⟩ := hcats
  refine ⟨fun s => hv, ?_, ?_, ?_⟩
  · rw [reconcile_eq]
    simp [catIndicator, hGD, hMD, hUI, hWD]
  · intro predict attrib score shapv hp ha
    unfold score_creator
    rw [hp, ha]
  · intro imps e he
    have h1 : e ∈ sortImpacts (featureImpacts (reconcile c) imps) :=
      List.Sublist.mem he (List.take_sublist 5 _)
    have h2 : e ∈ featureImpacts (reconcile c) imps :=
      (List.mergeSort_perm (featureImpacts (reconcile c) imps)
        (fun a b => decide (|b.impact| ≤ |a.impact|))).mem_iff.mp h1
    obtain ⟨t, ht, hct⟩ := List.mem_filterMap.mp h2
    by_cases hsw : (strStartsWith t.1 "project_category_") = true
    · have hv0 : t.2.1 = 0 :=
        reconcile_expansion_zero c hunk imps t ht hsw
      unfold contrib at hct
      rw [hsw, hv0] at hct
      simp at hct
    · have ht2 : (t.1, t.2) ∈ TRAINING_COLUMNS.zip ((reconcile c).zip imps) := by
        simpa using ht
      have hmem : t.1 ∈ TRAINING_COLUMNS := (List.of_mem_zip ht2).1
      have hne : t.1 ≠ "project_category" := by
        intro hcontra
        rw [hcontra] at hmem
        exact absurd hmem (by decide)
      have hsw2 : (strStartsWith t.1 "project_category_") = false := by
        simpa using hsw
      unfold contrib at hct
      rw [hsw2] at hct
      simp only [Bool.false_eq_true, if_false] at hct
      by_cases hkeep : t.2.1 ≠ 0 ∨ 1 / 100 < |t.2.2|
      · rw [if_pos hkeep] at hct
        simp only [Option.some.injEq] at hct
        rw [← hct]
        exact hne
      · rw [if_neg hkeep] at hct
        exact absurd hct (by simp)

theorem unknown_category_still_scored_witness :
    (reconcile unknownCreator).drop 7 = [0, 0, 0, 0] :=
  (unknown_category_still_scored unknownCreator
    (by refine ⟨?_, ?_, ?_, ?_, ?_, ?_, ?_, ?_, ?_, ?_, ?_, ?_, ?_, ?_⟩ <;>
      norm_num [unknownCreator, exampleCreator])
    (by decide)).2.1
